import Mathlib

/-!
Shallow embedding of the YuJa prospects Firebase functions
(`src/functions/index.js`): schema validation (`ProspectSchema`),
identity normalization (`normalizeId`), round-robin owner assignment
(`pickOwner`), the batched import (`importProspects`), role management
(`setUserRoleByEmail`) and the scheduled scoring recompute
(`recalculateScores`).

Modelling conventions:
- JavaScript strings are Lean `String`s; `undefined`/absent fields are
  `Option`; JS numbers that the code treats as integers (scores, epoch
  milliseconds) are `Int`.
- Firestore documents are records; collections are association lists
  keyed by document path components.
- A Firestore `WriteBatch` is a list of staged writes applied atomically
  by `commit`; `pickOwner`'s cursor write (`rrRef.set`) is NOT part of
  the batch in the source and is modelled as an immediate state update.
- `serverTimestamp()` is modelled by an explicit `now : Int` parameter.
-/

namespace Yuja

/-- JS `\s` whitespace (ASCII range) as used by `domain.replace(/\s+/g,'')`. -/
def isJsSpace (c : Char) : Bool :=
  c = ' ' || c = '\t' || c = '\n' || c = '\x0d' || c = '\x0b' || c = '\x0c'

/-- `s.replace(/\s+/g,'')`: drop every whitespace character. -/
def stripWs (s : String) : String :=
  ⟨s.toList.filter (fun c => !isJsSpace c)⟩

/-- `s.toLowerCase()` (ASCII letters; the repository's keys are ASCII). -/
def lowerStr (s : String) : String :=
  ⟨s.toList.map Char.toLower⟩

/-- `s.trim()` for the `z.string().trim()` transform: strip whitespace
from both ends. -/
def trimStr (s : String) : String :=
  ⟨((s.toList.dropWhile isJsSpace).reverse.dropWhile isJsSpace).reverse⟩

/--
`const normalizeId = (domain, product) =>
   domain.replace(/\s+/g,'').toLowerCase() + "_" + product`
-/
def normalizeId (domain product : String) : String :=
  lowerStr (stripWs domain) ++ "_" ++ product

/-- The closed `product` enumeration of `ProspectSchema`. -/
inductive Product
  | verity
  | panorama
  | lumina
deriving DecidableEq, Repr

/-- `z.enum(["verity","panorama","lumina"])`. -/
def parseProduct : String → Option Product
  | "verity" => some .verity
  | "panorama" => some .panorama
  | "lumina" => some .lumina
  | _ => none

def Product.str : Product → String
  | .verity => "verity"
  | .panorama => "panorama"
  | .lumina => "lumina"

/-- The closed `stage` enumeration of `ProspectSchema`. -/
inductive Stage
  | P1
  | nurture
  | research
  | hold
deriving DecidableEq, Repr

/-- `z.enum(["P1","nurture","research","hold"])`. -/
def parseStage : String → Option Stage
  | "P1" => some .P1
  | "nurture" => some .nurture
  | "research" => some .research
  | "hold" => some .hold
  | _ => none

def Stage.str : Stage → String
  | .P1 => "P1"
  | .nurture => "nurture"
  | .research => "research"
  | .hold => "hold"

/-- The closed `status` enumeration of `ProspectSchema`. -/
inductive Status
  | fresh
  | working
  | replied
  | qualified
  | disqualified
deriving DecidableEq, Repr

/-- `z.enum(["new","working","replied","qualified","disqualified"])`
(the source value `"new"` is `Status.fresh`, `new` being reserved). -/
def parseStatus : String → Option Status
  | "new" => some .fresh
  | "working" => some .working
  | "replied" => some .replied
  | "qualified" => some .qualified
  | "disqualified" => some .disqualified
  | _ => none

def Status.str : Status → String
  | .fresh => "new"
  | .working => "working"
  | .replied => "replied"
  | .qualified => "qualified"
  | .disqualified => "disqualified"

/-- `z.enum(["A","B","C"])` for `priority`. -/
inductive Priority
  | A
  | B
  | C
deriving DecidableEq, Repr

def parsePriority : String → Option Priority
  | "A" => some .A
  | "B" => some .B
  | "C" => some .C
  | _ => none

def Priority.str : Priority → String
  | .A => "A"
  | .B => "B"
  | .C => "C"

/-- A document of the external `roles` collection: `{ uid: d.id, ...d.data() }`.
`tenants` is the JS object mapping tenant id to role string; `regions` is
`undefined` when the document has no such field. -/
structure RoleEntry where
  uid : String
  tenants : List (String × String)
  regions : Option (List String)
  displayName : Option String
  email : Option String
deriving DecidableEq, Repr

/-- `r.tenants[tenantId]` (first binding wins, as in a JS object). -/
def tenantRole (e : RoleEntry) (tenantId : String) : Option String :=
  (e.tenants.find? (fun p => p.1 = tenantId)).map (·.2)

/-- `r.tenants && (r.tenants[tenantId] === "sdr" || r.tenants[tenantId] === "admin")`. -/
def roleOk (e : RoleEntry) (tenantId : String) : Bool :=
  match tenantRole e tenantId with
  | some r => r = "sdr" || r = "admin"
  | none => false

/-- `!r.regions || r.regions.includes(region) || r.regions.includes("ALL")`.
Note that a present-but-empty `regions` array is truthy in JS, so it does
not count as "no restriction". -/
def regionOk (e : RoleEntry) (region : String) : Bool :=
  match e.regions with
  | none => true
  | some rs => rs.contains region || rs.contains "ALL"

/-- The filter inside `pickOwner`: the eligible owner pool for a scope. -/
def eligiblePool (roles : List RoleEntry) (tenantId region : String) : List RoleEntry :=
  roles.filter (fun e => roleOk e tenantId && regionOk e region)

/-- A Firestore collection as an association list from document key to
document. -/
def alGet {κ β : Type} [DecidableEq κ] (m : List (κ × β)) (k : κ) : Option β :=
  (m.find? (fun p => p.1 = k)).map (·.2)

/-- Overwrite-or-create the document at key `k`. -/
def alSet {κ β : Type} [DecidableEq κ] (m : List (κ × β)) (k : κ) (v : β) :
    List (κ × β) :=
  (k, v) :: m.filter (fun p => p.1 ≠ k)

/-- A document of the `routing` collection (rotation cursor). -/
structure Cursor where
  lastIndex : Nat
  count : Nat
  tenantId : String
  region : String
deriving DecidableEq, Repr

/-- The `routing` collection, keyed by the scope id. -/
abbrev CursorMap := List (String × Cursor)

def getCursor (m : CursorMap) (k : String) : Option Cursor :=
  alGet m k

/-- Overwrite-or-create the cursor document for key `k` (the `rrRef.set`
with `merge: true` supplies every cursor field, so it replaces the
modelled document). -/
def setCursor (m : CursorMap) (k : String) (c : Cursor) : CursorMap :=
  alSet m k c

/-- `` `${tenantId}__${region || "ANY"}` `` — the empty string is falsy. -/
def scopeKey (tenantId region : String) : String :=
  tenantId ++ "__" ++ (if region = "" then "ANY" else region)

/-- `region || "ANY"` as stored in the cursor document. -/
def regionOrAny (region : String) : String :=
  if region = "" then "ANY" else region

/--
`pickOwner(tenantId, region)`: filter the role pool; on an empty pool
return `null` without touching the cursor; otherwise read the cursor,
select index `0` (no cursor) or `(lastIndex + 1) % pool.length`, write
the new cursor (`lastIndex`, incremented `count`, scope fields) and
return `pool[idx]`.  The read and the write are two separate storage
operations in the source (`rrRef.get()` then `rrRef.set(...)`), not a
transaction; this function is their sequential composition.
-/
def pickOwner (roles : List RoleEntry) (tenantId region : String)
    (cursors : CursorMap) : Option RoleEntry × CursorMap :=
  let pool := eligiblePool roles tenantId region
  if pool.length = 0 then
    (none, cursors)
  else
    let k := scopeKey tenantId region
    let idx : Nat :=
      match getCursor cursors k with
      | none => 0
      | some c => (c.lastIndex + 1) % pool.length
    let oldCount : Nat :=
      match getCursor cursors k with
      | none => 0
      | some c => c.count
    (pool.get? idx,
     setCursor cursors k
       { lastIndex := idx, count := oldCount + 1,
         tenantId := tenantId, region := regionOrAny region })

/-- `x || null` for a string-or-undefined JS value: the empty string is falsy. -/
def jsOrNull (o : Option String) : Option String :=
  match o with
  | some s => if s = "" then none else some s
  | none => none

/-- `a || d` for a string-or-undefined `a` with string fallback `d`. -/
def jsOrStr (o : Option String) (d : String) : String :=
  match o with
  | some s => if s = "" then d else s
  | none => d

/-- `x ? x : null` for a numeric-or-undefined JS value: `0` is falsy. -/
def jsTruthyInt (o : Option Int) : Option Int :=
  match o with
  | some t => if t = 0 then none else some t
  | none => none

/-- An element of the `contacts` array accepted by `ProspectSchema`. -/
structure ContactIn where
  name : String
  title : Option String := none
  email : Option String := none
  phone : Option String := none
  role : Option String := none
deriving DecidableEq, Repr

/-- An element of the `signals` array accepted by `ProspectSchema`. -/
structure SignalIn where
  type : String
  title : String
  date : Option String := none
  source : Option String := none
deriving DecidableEq, Repr

/-- One raw input record as handed to `ProspectSchema.parse`; `none` is an
absent (`undefined`) field.  Numeric timestamps are epoch milliseconds. -/
structure RawRecord where
  tenantId : Option String := none
  institutionName : Option String := none
  domain : Option String := none
  product : Option String := none
  region : Option String := none
  timezone : Option String := none
  lms : Option String := none
  score : Option Int := none
  stage : Option String := none
  wedges : Option (List String) := none
  whyNow : Option String := none
  currentTools : Option (List String) := none
  ownerUid : Option String := none
  ownerName : Option String := none
  status : Option String := none
  priority : Option String := none
  lastContactedAt : Option Int := none
  nextStep : Option String := none
  nextStepDueAt : Option Int := none
  contacts : Option (List ContactIn) := none
  signals : Option (List SignalIn) := none
deriving DecidableEq, Repr

/-- The well-typed output of a successful `ProspectSchema.parse`.
Fields wrapped in `.optional()` in the schema stay `Option` (zod's
`ZodOptional` lets `undefined` through even past an inner `.default`,
which is why the import code re-applies `|| "new"`, `|| "B"`, `|| ""`). -/
structure Prospect where
  tenantId : String
  institutionName : String
  domain : String
  product : Product
  region : String
  timezone : String
  lms : String
  score : Int
  stage : Stage
  wedges : List String
  whyNow : String
  currentTools : List String
  ownerUid : Option String
  ownerName : Option String
  status : Option Status
  priority : Option Priority
  lastContactedAt : Option Int
  nextStep : Option String
  nextStepDueAt : Option Int
  contacts : Option (List ContactIn)
  signals : Option (List SignalIn)
deriving DecidableEq, Repr

/--
`ProspectSchema.parse`: required `tenantId` (min 1), `institutionName`
(min 2), `domain` (trimmed and lower-cased by the schema), `product`
(closed enum); `score` is an integer in `[0, 100]` defaulting to `0`;
`stage` defaults to `research`; enumerations present with a value outside
their closed set fail; everything else is optional / defaulted as in the
schema.  Returns `none` for a `ValidationError` throw.
-/
def checkScore : Option Int → Option Int
  | none => some 0
  | some s => if 0 ≤ s ∧ s ≤ 100 then some s else none

def checkStage : Option String → Option Stage
  | none => some Stage.research
  | some s => parseStage s

def checkStatus : Option String → Option (Option Status)
  | none => some none
  | some s => (parseStatus s).map some

def checkPriority : Option String → Option (Option Priority)
  | none => some none
  | some s => (parsePriority s).map some

def validateRecord (r : RawRecord) : Option Prospect :=
  match r.tenantId with
  | none => none
  | some tenantId =>
  if 1 ≤ tenantId.length then
    match r.institutionName with
    | none => none
    | some institutionName =>
    if 2 ≤ institutionName.length then
      match r.domain with
      | none => none
      | some domRaw =>
      match r.product.bind parseProduct with
      | none => none
      | some product =>
      match checkScore r.score with
      | none => none
      | some score =>
      match checkStage r.stage with
      | none => none
      | some stage =>
      match checkStatus r.status with
      | none => none
      | some status =>
      match checkPriority r.priority with
      | none => none
      | some priority =>
      some { tenantId := tenantId, institutionName := institutionName,
             domain := lowerStr (trimStr domRaw), product := product,
             region := r.region.getD "", timezone := r.timezone.getD "",
             lms := r.lms.getD "", score := score, stage := stage,
             wedges := r.wedges.getD [], whyNow := r.whyNow.getD "",
             currentTools := r.currentTools.getD [],
             ownerUid := r.ownerUid, ownerName := r.ownerName,
             status := status, priority := priority,
             lastContactedAt := r.lastContactedAt,
             nextStep := r.nextStep, nextStepDueAt := r.nextStepDueAt,
             contacts := r.contacts, signals := r.signals }
    else none
  else none

/-- `{ ...raw, product: (raw.product||"").toLowerCase() }` — the import
entry point case-folds `product` before validation. -/
def prepare (r : RawRecord) : RawRecord :=
  { r with product := some (lowerStr (r.product.getD "")) }

/-- A stored Prospect document: exactly the payload of the `batch.set`
in `importProspects` (`serverTimestamp()` is the `now` of the call). -/
structure ProspectDoc where
  tenantId : String
  institutionName : String
  domain : String
  product : String
  region : String
  timezone : String
  lms : String
  score : Int
  stage : String
  wedges : List String
  whyNow : String
  currentTools : List String
  ownerUid : Option String
  ownerName : Option String
  status : String
  priority : String
  lastContactedAt : Option Int
  nextStep : String
  nextStepDueAt : Option Int
  createdAt : Int
  updatedAt : Int
deriving DecidableEq, Repr

/-- The `batch.set` payload for one parsed record with resolved owner. -/
def mkProspectDoc (p : Prospect) (ownerUid ownerName : Option String)
    (now : Int) : ProspectDoc :=
  { tenantId := p.tenantId, institutionName := p.institutionName,
    domain := p.domain, product := p.product.str,
    region := p.region, timezone := p.timezone, lms := p.lms,
    score := p.score, stage := p.stage.str,
    wedges := p.wedges, whyNow := p.whyNow,
    currentTools := p.currentTools,
    ownerUid := ownerUid, ownerName := ownerName,
    status := (p.status.map Status.str).getD "new",
    priority := (p.priority.map Priority.str).getD "B",
    lastContactedAt := jsTruthyInt p.lastContactedAt,
    nextStep := (p.nextStep).getD "",
    nextStepDueAt := jsTruthyInt p.nextStepDueAt,
    createdAt := now, updatedAt := now }

/-- A stored contact sub-document: `{ ...c, createdAt }`. -/
structure ContactDoc where
  name : String
  title : Option String
  email : Option String
  phone : Option String
  role : Option String
  createdAt : Int
deriving DecidableEq, Repr

/-- A stored signal sub-document: `{ ...s, date: s.date ? s.date : null,
createdAt }` (the `new Date` conversion keeps the value, elided here). -/
structure SignalDoc where
  type : String
  title : String
  date : Option String
  source : Option String
  createdAt : Int
deriving DecidableEq, Repr

/-- An `audit` collection document (`by` and `at` are reserved words in
Lean, so they appear as `byUid` and `atMs`). -/
structure AuditDoc where
  type : String
  tenantId : String
  prospectId : String
  byUid : String
  atMs : Int
deriving DecidableEq, Repr

/-- One write staged on the Firestore `WriteBatch` of an import call. -/
inductive StagedWrite
  | prospect (tenantId : String) (docId : String) (doc : ProspectDoc)
  | contact (tenantId : String) (prospectId : String) (doc : ContactDoc)
  | signal (tenantId : String) (prospectId : String) (doc : SignalDoc)
  | audit (doc : AuditDoc)
deriving DecidableEq, Repr

/-- The prospects of all tenants, keyed by `(tenantId, docId)` — the path
`tenants/{tenantId}/prospects/{docId}`. -/
abbrev ProspectStore := List ((String × String) × ProspectDoc)

def getDoc (st : ProspectStore) (k : String × String) : Option ProspectDoc :=
  alGet st k

/-- `batch.set(ref, payload, { merge: true })`: the payload built by
`importProspects` supplies every modelled field (including `createdAt`
and `updatedAt`), so the merge overwrites the whole modelled document. -/
def setDocMerge (st : ProspectStore) (k : String × String)
    (d : ProspectDoc) : ProspectStore :=
  alSet st k d

/-- The persisted state the functions touch. -/
structure DBState where
  prospects : ProspectStore
  contacts : List ((String × String) × ContactDoc)
  signals : List ((String × String) × SignalDoc)
  audit : List AuditDoc
  cursors : CursorMap
deriving DecidableEq, Repr

def DBState.empty : DBState :=
  { prospects := [], contacts := [], signals := [], audit := [], cursors := [] }

def applyWrite (st : DBState) : StagedWrite → DBState
  | .prospect t id d => { st with prospects := setDocMerge st.prospects (t, id) d }
  | .contact t pid d => { st with contacts := st.contacts ++ [((t, pid), d)] }
  | .signal t pid d => { st with signals := st.signals ++ [((t, pid), d)] }
  | .audit a => { st with audit := st.audit ++ [a] }

/-- `batch.commit()`: apply every staged write, in order, as one unit. -/
def applyBatch (st : DBState) (ws : List StagedWrite) : DBState :=
  ws.foldl applyWrite st

/-- The owner-resolution block of the import loop:
`let ownerUid = parsed.ownerUid || null; let ownerName = parsed.ownerName
|| null; if (!ownerUid) { const chosen = await pickOwner(...); if
(chosen) {...} }`.  Returns the resolved `(ownerUid, ownerName)` and the
cursor collection as left by `pickOwner` (which writes it immediately,
outside the batch). -/
def resolveOwner (roles : List RoleEntry) (parsed : Prospect)
    (cursors : CursorMap) : Option String × Option String × CursorMap :=
  let ownerUid0 := jsOrNull parsed.ownerUid
  let ownerName0 := jsOrNull parsed.ownerName
  match ownerUid0 with
  | some u => (some u, ownerName0, cursors)
  | none =>
    match pickOwner roles parsed.tenantId parsed.region cursors with
    | (some chosen, cs') =>
      (some chosen.uid,
       some (jsOrStr chosen.displayName (jsOrStr chosen.email chosen.uid)),
       cs')
    | (none, cs') => (none, ownerName0, cs')

/-- The contact sub-document writes staged for one record:
`batch.set(base.collection("contacts").doc(), { ...c, createdAt })`. -/
def contactWrites (tenantId id : String) (now : Int) (l : List ContactIn) :
    List StagedWrite :=
  l.map (fun c => StagedWrite.contact tenantId id
    { name := c.name, title := c.title, email := c.email,
      phone := c.phone, role := c.role, createdAt := now })

/-- The signal sub-document writes staged for one record. -/
def signalWrites (tenantId id : String) (now : Int) (l : List SignalIn) :
    List StagedWrite :=
  l.map (fun s => StagedWrite.signal tenantId id
    { type := s.type, title := s.title, date := jsOrNull s.date,
      source := s.source, createdAt := now })

/-- The one audit write staged for one record:
`batch.set(db.collection("audit").doc(), { type: "import", ... })`. -/
def auditWrite (tenantId id caller : String) (now : Int) : StagedWrite :=
  StagedWrite.audit
    { type := "import", tenantId := tenantId, prospectId := id,
      byUid := caller, atMs := now }

/-- The writes the import loop stages on the batch for one validated
record: the prospect document (owner fields resolved), one contact
sub-document per supplied contact, one signal sub-document per supplied
signal, and exactly one audit record referencing the prospect id and
the caller. -/
def stagedWrites (roles : List RoleEntry) (caller : String) (now : Int)
    (cursors : CursorMap) (parsed : Prospect) : List StagedWrite :=
  StagedWrite.prospect parsed.tenantId (normalizeId parsed.domain parsed.product.str)
      (mkProspectDoc parsed (resolveOwner roles parsed cursors).1
        (resolveOwner roles parsed cursors).2.1 now)
    :: (contactWrites parsed.tenantId (normalizeId parsed.domain parsed.product.str)
          now (parsed.contacts.getD [])
        ++ signalWrites parsed.tenantId (normalizeId parsed.domain parsed.product.str)
            now (parsed.signals.getD [])
        ++ [auditWrite parsed.tenantId (normalizeId parsed.domain parsed.product.str)
              caller now])

/--
The per-record body of the `importProspects` loop: validate (throwing
ends the whole call), derive the document id, resolve the owner — the
owner resolution is what advances the rotation cursor, immediately —
then stage the record's writes.  Returns `none` on a validation throw,
otherwise the updated cursor collection and the staged writes.
-/
def stageItem (roles : List RoleEntry) (caller : String) (now : Int)
    (cursors : CursorMap) (raw : RawRecord) :
    Option (CursorMap × List StagedWrite) :=
  match validateRecord (prepare raw) with
  | none => none
  | some parsed =>
    some ((resolveOwner roles parsed cursors).2.2,
          stagedWrites roles caller now cursors parsed)

/--
The `for (const raw of items)` loop: records are processed in order; a
validation throw aborts the call, keeping the cursor writes already made
by `pickOwner` for earlier records but discarding the staged batch.
Returns the cursor collection as left by the loop and, on success, the
accumulated batch together with `count`.
-/
def stageAll (roles : List RoleEntry) (caller : String) (now : Int) :
    List RawRecord → CursorMap → CursorMap × Option (List StagedWrite × Nat)
  | [], cs => (cs, some ([], 0))
  | raw :: rest, cs =>
    match stageItem roles caller now cs raw with
    | none => (cs, none)
    | some (cs', ws) =>
      match stageAll roles caller now rest cs' with
      | (cs'', none) => (cs'', none)
      | (cs'', some (ws', n)) => (cs'', some (ws ++ ws', n + 1))

inductive ImportError
  | authRequired
  | noData
  | invalidRecord
deriving DecidableEq, Repr

/--
`importProspects`: reject a falsy caller uid (`Auth required`) and a
missing body (`No data provided`) before touching storage; stage all
records; on success commit the batch atomically and answer
`{ ok: true, count }`.  The returned state is the storage state after
the call, whether it succeeded or threw.
-/
def importProspects (roles : List RoleEntry) (caller : Option String)
    (items : Option (List RawRecord)) (now : Int) (st : DBState) :
    DBState × Except ImportError Nat :=
  match jsOrNull caller with
  | none => (st, .error .authRequired)
  | some c =>
    match items with
    | none => (st, .error .noData)
    | some list =>
      match stageAll roles c now list st.cursors with
      | (cs', none) => ({ st with cursors := cs' }, .error .invalidRecord)
      | (cs', some (ws, n)) =>
        (applyBatch { st with cursors := cs' } ws, .ok n)

/--
The `roles` document written by `setUserRoleByEmail` once its auth and
argument checks pass:
`{ tenants, regions: regions || [], email, displayName: displayName ||
user.displayName || email }` set (with merge) at `roles/{user.uid}`.
The `regions` field is always written, defaulting to the empty array.
-/
def setUserRoleDoc (uid : String) (tenants : List (String × String))
    (regions : Option (List String)) (email : String)
    (displayName : Option String) (userDisplayName : Option String) :
    RoleEntry :=
  { uid := uid, tenants := tenants,
    regions := some (regions.getD []),
    email := some email,
    displayName := some (jsOrStr displayName (jsOrStr userDisplayName email)) }

def msPerDay : Int := 1000 * 60 * 60 * 24

/--
The per-document body of `recalculateScores`: if `lastContactedAt` is
set and `Math.floor((now - last) / msPerDay) >= 3`, decrement the score
by 2 floored at 0; then recompute the stage from the resulting score
(the source initialises `stage` to `p.stage || "research"` but every
branch of the threshold chain reassigns it, so the prior stage is dead);
write `score`, `stage` and `updatedAt` unconditionally.
-/
def recalcOne (now : Int) (p : ProspectDoc) : ProspectDoc :=
  let score0 : Int := p.score
  let score : Int :=
    match p.lastContactedAt with
    | some last =>
      let days := (now - last).fdiv msPerDay
      if 3 ≤ days then max 0 (score0 - 2) else score0
    | none => score0
  let stage : String :=
    if 80 ≤ score then "P1"
    else if 60 ≤ score then "nurture"
    else "research"
  { p with score := score, stage := stage, updatedAt := now }

/-- `recalculateScores`: one batched update over every prospect of every
tenant (`collectionGroup("prospects")`), committed as one unit. -/
def recalculateScores (now : Int) (ps : ProspectStore) : ProspectStore :=
  ps.map (fun kv => (kv.1, recalcOne now kv.2))

/-- Modelled from the spec: the stage-threshold rule of §4.7, stated on
its own so the code's stage chain can be compared against it
(`score >= 80 → P1`; `60 <= score < 80 → nurture`; otherwise `research`). -/
def stageOfScore (s : Int) : String :=
  if 80 ≤ s then "P1" else if 60 ≤ s then "nurture" else "research"

/-- `k` consecutive `pickOwner` calls for one fixed scope, returning the
selected owners in call order and the final cursor collection. -/
def assignSeq (roles : List RoleEntry) (tenantId region : String) :
    Nat → CursorMap → List (Option RoleEntry) × CursorMap
  | 0, cs => ([], cs)
  | k + 1, cs =>
    let fst := pickOwner roles tenantId region cs
    let rest := assignSeq roles tenantId region k fst.2
    (fst.1 :: rest.1, rest.2)

/-- The index `pickOwner` computes from what its `rrRef.get()` read:
`0` when no cursor document exists, `(lastIndex + 1) % poolLen` otherwise. -/
def selectedIndex (poolLen : Nat) (cursor : Option Nat) : Nat :=
  match cursor with
  | none => 0
  | some i => (i + 1) % poolLen

/-- State for two concurrent assignment calls, A and B, in the same
scope: the stored cursor (`none` = document absent) and, for each call,
the index it computed at its read step (`none` = has not read yet). -/
structure RaceState where
  cursor : Option Nat
  readA : Option Nat
  readB : Option Nat
deriving DecidableEq, Repr

/-- The four storage operations of two concurrent cursor advances; each
call runs its read (`rrRef.get()`) and then its write (`rrRef.set`),
but the source wraps them in no transaction, so operations of A and B
may interleave. -/
inductive RaceEvt
  | readA
  | writeA
  | readB
  | writeB
deriving DecidableEq, Repr

def raceStep (poolLen : Nat) (s : RaceState) : RaceEvt → RaceState
  | .readA => { s with readA := some (selectedIndex poolLen s.cursor) }
  | .writeA =>
    match s.readA with
    | some i => { s with cursor := some i }
    | none => s
  | .readB => { s with readB := some (selectedIndex poolLen s.cursor) }
  | .writeB =>
    match s.readB with
    | some i => { s with cursor := some i }
    | none => s

def runRace (poolLen : Nat) (evts : List RaceEvt) (s : RaceState) : RaceState :=
  evts.foldl (raceStep poolLen) s

/-- The audit documents staged on a batch, in staging order. -/
def auditsOf (ws : List StagedWrite) : List AuditDoc :=
  ws.filterMap (fun w =>
    match w with
    | .audit a => some a
    | _ => none)

/-- The `(tenantId, docId)` keys of the prospect writes staged on a batch. -/
def prospectKeys (ws : List StagedWrite) : List (String × String) :=
  ws.filterMap (fun w =>
    match w with
    | .prospect t id _ => some (t, id)
    | _ => none)

/-- A role-pool entry granting `sdr` on tenant `t1` with no `regions`
field, used as a concrete test fixture. -/
def exRole : RoleEntry :=
  { uid := "u1", tenants := [("t1", "sdr")], regions := none,
    displayName := some "Ann", email := none }

/-- A second eligible entry, to form a pool of size two. -/
def exRole2 : RoleEntry :=
  { uid := "u2", tenants := [("t1", "admin")], regions := none,
    displayName := none, email := some "bo@x.io" }

/-- A valid import record with an explicit score of 50 and no owner. -/
def exRecord : RawRecord :=
  { tenantId := some "t1", institutionName := some "Acme U",
    domain := some "a.edu", product := some "Verity", score := some 50 }

/-- The same identity re-imported with the `score` field omitted. -/
def exOmitScore : RawRecord :=
  { tenantId := some "t1", institutionName := some "Acme U",
    domain := some "a.edu", product := some "verity" }

/-- A record that fails schema validation: `product = "unknown"`. -/
def exBadRecord : RawRecord :=
  { tenantId := some "t1", institutionName := some "Acme U",
    domain := some "b.edu", product := some "unknown" }

/-- A valid record that already carries an owner. -/
def exOwnedRecord : RawRecord :=
  { tenantId := some "t1", institutionName := some "Acme U",
    domain := some "c.edu", product := some "lumina",
    ownerUid := some "boss", ownerName := some "Boss" }

/-- A stored prospect document fixture for the recompute examples. -/
def exDoc (score : Int) (stage : String) (lastContactedAt : Option Int) :
    ProspectDoc :=
  { tenantId := "t1", institutionName := "Acme U", domain := "a.edu",
    product := "verity", region := "", timezone := "", lms := "",
    score := score, stage := stage, wedges := [], whyNow := "",
    currentTools := [], ownerUid := none, ownerName := none,
    status := "new", priority := "B", lastContactedAt := lastContactedAt,
    nextStep := "", nextStepDueAt := none, createdAt := 0, updatedAt := 0 }

/-- The parse of `exOmitScore`: zod fills the defaults, in particular
`score := 0` for the omitted score field. -/
def exParsed : Prospect :=
  { tenantId := "t1", institutionName := "Acme U", domain := "a.edu",
    product := Product.verity, region := "", timezone := "", lms := "",
    score := 0, stage := Stage.research, wedges := [], whyNow := "",
    currentTools := [], ownerUid := none, ownerName := none,
    status := none, priority := none, lastContactedAt := none,
    nextStep := none, nextStepDueAt := none, contacts := none, signals := none }

/-! ## Supporting lemmas -/

theorem alGet_alSet_self {κ β : Type} [DecidableEq κ] (m : List (κ × β))
    (k : κ) (v : β) : alGet (alSet m k v) k = some v := by
  unfold alGet alSet
  rw [List.find?_cons_of_pos _ (by simp)]
  rfl

theorem find?_filter_ne {κ β : Type} [DecidableEq κ] (m : List (κ × β))
    (k k' : κ) (h : k' ≠ k) :
    (m.filter (fun p => p.1 ≠ k)).find? (fun p => p.1 = k') =
      m.find? (fun p => p.1 = k') := by
  induction m with
  | nil => rfl
  | cons hd tl ih =>
    rw [List.filter_cons]
    by_cases h2 : hd.1 = k
    · have h1 : ¬ hd.1 = k' := fun hh => h (by rw [← hh, h2])
      rw [if_neg (by simp [h2]), ih, List.find?_cons_of_neg _ (by simp [h1])]
    · rw [if_pos (by simp [h2])]
      by_cases h1 : hd.1 = k'
      · rw [List.find?_cons_of_pos _ (by simp [h1]),
            List.find?_cons_of_pos _ (by simp [h1])]
      · rw [List.find?_cons_of_neg _ (by simp [h1]),
            List.find?_cons_of_neg _ (by simp [h1]), ih]

theorem alGet_alSet_ne {κ β : Type} [DecidableEq κ] (m : List (κ × β))
    (k k' : κ) (v : β) (h : k' ≠ k) :
    alGet (alSet m k v) k' = alGet m k' := by
  unfold alGet alSet
  rw [List.find?_cons_of_neg _ (by simp; exact fun hh => h hh.symm),
      find?_filter_ne m k k' h]

theorem checkScore_range (o : Option Int) (s : Int) (h : checkScore o = some s) :
    (0 ≤ s ∧ s ≤ 100) ∧ ∀ x, o = some x → s = x := by
  cases o with
  | none =>
    unfold checkScore at h
    cases h
    exact ⟨⟨le_refl 0, by norm_num⟩, fun x hx => by cases hx⟩
  | some x =>
    have hx : checkScore (some x) = if 0 ≤ x ∧ x ≤ 100 then some x else none := rfl
    rw [hx] at h
    by_cases hrange : 0 ≤ x ∧ x ≤ 100
    · rw [if_pos hrange] at h
      cases h
      exact ⟨hrange, fun y hy => by cases hy; rfl⟩
    · rw [if_neg hrange] at h
      cases h

theorem validateRecord_checkScore (r : RawRecord) (p : Prospect)
    (h : validateRecord r = some p) :
    checkScore r.score = some p.score := by
  unfold validateRecord at h
  split at h
  · exact absurd h (by simp)
  · split at h
    · split at h
      · exact absurd h (by simp)
      · split at h
        · split at h
          · exact absurd h (by simp)
          · split at h
            · exact absurd h (by simp)
            · split at h
              · exact absurd h (by simp)
              · split at h
                · exact absurd h (by simp)
                · split at h
                  · exact absurd h (by simp)
                  · split at h
                    · exact absurd h (by simp)
                    · cases h
                      assumption
        · exact absurd h (by simp)
    · exact absurd h (by simp)

/-! ## Claim theorems -/

/-- C6: `normalizeId` strips all whitespace from the domain, lower-cases
it, and concatenates domain and product with the fixed separator `_`;
it is a pure function, so any two domains that differ only in whitespace
and letter case (i.e. agree after whitespace removal and case-folding)
give byte-identical ids for the same product — in particular
`normalizeId "Example.EDU " "verity" = normalizeId "example.edu" "verity"`. -/
theorem normalizeId_whitespace_case_invariant :
    (∀ d₁ d₂ p : String, lowerStr (stripWs d₁) = lowerStr (stripWs d₂) →
       normalizeId d₁ p = normalizeId d₂ p) ∧
    normalizeId "Example.EDU " "verity" = normalizeId "example.edu" "verity" := by
  constructor
  · intro d₁ d₂ p h
    unfold normalizeId
    rw [h]
  · rfl

/-- Witness for C6 at the spec's concrete identity example. -/
theorem normalizeId_whitespace_case_invariant_witness :
    normalizeId "Example.EDU " "verity" = normalizeId "example.edu" "verity" :=
  normalizeId_whitespace_case_invariant.1 "Example.EDU " "example.edu" "verity"
    (by decide)

/-- C10: a role-pool entry whose `regions` field is present but empty is
excluded from the eligible pool for every tenant and region (only an
absent `regions` field counts as "no region restriction"), and the
document written by `setUserRoleByEmail` always carries a `regions`
array, defaulting to the empty one — so such entries can never be
selected as owners for any region. -/
theorem empty_regions_never_eligible :
    (∀ (e : RoleEntry), e.regions = some [] →
       ∀ (roles : List RoleEntry) (tenantId region : String),
         regionOk e region = false ∧ e ∉ eligiblePool roles tenantId region) ∧
    (∀ (uid : String) (tenants : List (String × String))
       (regions : Option (List String)) (email : String)
       (displayName userDisplayName : Option String),
       (setUserRoleDoc uid tenants regions email displayName userDisplayName).regions
           = some (regions.getD []) ∧
       (setUserRoleDoc uid tenants none email displayName userDisplayName).regions
           = some []) := by
  constructor
  · intro e he roles tenantId region
    have hro : regionOk e region = false := by simp [regionOk, he]
    refine ⟨hro, ?_⟩
    intro hmem
    rw [eligiblePool, List.mem_filter] at hmem
    rw [hro] at hmem
    simp at hmem
  · intro uid tenants regions email displayName userDisplayName
    exact ⟨rfl, rfl⟩

/-- Witness for C10: a concrete entry with an empty `regions` array is
ineligible even though its tenant role matches. -/
theorem empty_regions_never_eligible_witness :
    regionOk { uid := "u3", tenants := [("t1", "sdr")], regions := some [],
               displayName := none, email := none } "east" = false ∧
    ({ uid := "u3", tenants := [("t1", "sdr")], regions := some [],
       displayName := none, email := none } : RoleEntry) ∉
      eligiblePool
        [{ uid := "u3", tenants := [("t1", "sdr")], regions := some [],
           displayName := none, email := none }] "t1" "east" :=
  empty_regions_never_eligible.1 _ rfl [_] "t1" "east"

/-- C4: for every prospect processed by the scheduled recompute, the
score is decremented by 2 (floored at 0) exactly when `lastContactedAt`
is set and `floor((now - lastContactedAt) / 1 day) >= 3`, and is
unchanged otherwise; the stage is then recomputed solely from the
resulting score by the threshold rule (>= 80 gives P1, 60..79 nurture,
otherwise research), overwriting any prior stage value including a
manually set "hold"; `score`, `stage` and `updatedAt` are written for
every record, `updatedAt` being set to the run's `now` even when the
score is unchanged. -/
theorem recalcOne_decay_and_stage (now : Int) :
    (∀ (ps : ProspectStore), ∀ kv ∈ ps,
       (kv.1, recalcOne now kv.2) ∈ recalculateScores now ps) ∧
    ∀ (p : ProspectDoc),
      (∀ last, p.lastContactedAt = some last →
         3 ≤ (now - last).fdiv msPerDay →
         (recalcOne now p).score = max 0 (p.score - 2)) ∧
      (∀ last, p.lastContactedAt = some last →
         (now - last).fdiv msPerDay < 3 →
         (recalcOne now p).score = p.score) ∧
      (p.lastContactedAt = none → (recalcOne now p).score = p.score) ∧
      (recalcOne now p).stage = stageOfScore (recalcOne now p).score ∧
      (∀ s : String, recalcOne now { p with stage := s } = recalcOne now p) ∧
      (recalcOne now p).updatedAt = now := by
  constructor
  · intro ps kv hkv
    exact List.mem_map_of_mem _ hkv
  · intro p
    refine ⟨?_, ?_, ?_, ?_, ?_, ?_⟩
    · intro last hlast hdays
      simp [recalcOne, hlast, hdays]
    · intro last hlast hdays
      have h3 : ¬ 3 ≤ (now - last).fdiv msPerDay := by omega
      simp [recalcOne, hlast, h3]
    · intro hlast
      simp [recalcOne, hlast]
    · unfold recalcOne stageOfScore
      cases p.lastContactedAt <;> simp
    · intro s
      rfl
    · simp [recalcOne]

/-- Witness for C4 at the spec's three decay examples (82 → 80 after 5
days, 61 unchanged after 1 day, 1 → 0 floored after 10 days). -/
theorem recalcOne_decay_and_stage_witness :
    (recalcOne (5 * msPerDay) (exDoc 82 "hold" (some 0))).score = max 0 (82 - 2) ∧
    (recalcOne (1 * msPerDay) (exDoc 61 "hold" (some 0))).score = 61 ∧
    (recalcOne (10 * msPerDay) (exDoc 1 "hold" (some 0))).score = max 0 (1 - 2) := by
  refine ⟨?_, ?_, ?_⟩
  · exact ((recalcOne_decay_and_stage (5 * msPerDay)).2 (exDoc 82 "hold" (some 0))).1
      0 rfl (by decide)
  · exact ((recalcOne_decay_and_stage (1 * msPerDay)).2 (exDoc 61 "hold" (some 0))).2.1
      0 rfl (by decide)
  · exact ((recalcOne_decay_and_stage (10 * msPerDay)).2 (exDoc 1 "hold" (some 0))).1
      0 rfl (by decide)

/-- C8: the invariant `score ∈ [0,100]`: every record accepted by
validation has a score in `[0,100]`; a record carrying an out-of-range
score is rejected; and the recompute keeps a score within `[0,100]` and
never increases it. -/
theorem score_bounds_invariant :
    (∀ (r : RawRecord) (p : Prospect), validateRecord r = some p →
       0 ≤ p.score ∧ p.score ≤ 100) ∧
    (∀ (r : RawRecord) (s : Int), r.score = some s → s < 0 ∨ 100 < s →
       validateRecord r = none) ∧
    (∀ (now : Int) (d : ProspectDoc), 0 ≤ d.score → d.score ≤ 100 →
       0 ≤ (recalcOne now d).score ∧ (recalcOne now d).score ≤ 100 ∧
       (recalcOne now d).score ≤ d.score) := by
  refine ⟨?_, ?_, ?_⟩
  · intro r p h
    exact (checkScore_range _ _ (validateRecord_checkScore r p h)).1
  · intro r s hs hout
    cases hv : validateRecord r with
    | none => rfl
    | some p =>
      have h1 := checkScore_range _ _ (validateRecord_checkScore r p hv)
      have h2 := h1.2 s hs
      have h3 := h1.1
      omega
  · intro now d h0 h100
    cases hl : d.lastContactedAt with
    | none =>
      simp [recalcOne, hl]
      omega
    | some last =>
      by_cases hd : 3 ≤ (now - last).fdiv msPerDay
      · simp only [recalcOne, hl, if_pos hd]
        refine ⟨le_max_left 0 _, max_le (by omega) (by omega), max_le h0 (by omega)⟩
      · simp only [recalcOne, hl, if_neg hd]
        exact ⟨h0, h100, le_refl _⟩

/-- Witness for C8: the floored decay at score 1, and the rejection of a
record with score 250. -/
theorem score_bounds_invariant_witness :
    (0 ≤ (recalcOne (10 * msPerDay) (exDoc 1 "hold" (some 0))).score ∧
     (recalcOne (10 * msPerDay) (exDoc 1 "hold" (some 0))).score ≤ 100 ∧
     (recalcOne (10 * msPerDay) (exDoc 1 "hold" (some 0))).score ≤
       (exDoc 1 "hold" (some 0)).score) ∧
    validateRecord { exRecord with score := some 250 } = none := by
  constructor
  · exact score_bounds_invariant.2.2 (10 * msPerDay) (exDoc 1 "hold" (some 0))
      (by decide) (by decide)
  · exact score_bounds_invariant.2.1 { exRecord with score := some 250 } 250 rfl
      (by norm_num)

/-- `pickOwner` on a non-empty pool: the selected owner is
`pool[selectedIndex]` computed from the cursor read, and the cursor
document is rewritten with that index, an incremented count and the
scope fields. -/
theorem pickOwner_step (roles : List RoleEntry) (t r : String) (cs : CursorMap)
    (h : eligiblePool roles t r ≠ []) :
    pickOwner roles t r cs =
      ((eligiblePool roles t r).get?
         (selectedIndex (eligiblePool roles t r).length
           ((getCursor cs (scopeKey t r)).map (fun c => c.lastIndex))),
       setCursor cs (scopeKey t r)
         { lastIndex := selectedIndex (eligiblePool roles t r).length
             ((getCursor cs (scopeKey t r)).map (fun c => c.lastIndex)),
           count := (match getCursor cs (scopeKey t r) with
                     | none => 0
                     | some c => c.count) + 1,
           tenantId := t, region := regionOrAny r }) := by
  have hlen : ¬ (eligiblePool roles t r).length = 0 := by
    simpa [List.length_eq_zero] using h
  unfold pickOwner
  rw [if_neg hlen]
  cases hc : getCursor cs (scopeKey t r) <;> simp [selectedIndex, hc, regionOrAny]

/-- C9 counterexample: the cursor advance is a separate `rrRef.get()`
followed by a separate `rrRef.set`, so scheduling the reads of two
concurrent calls in the same scope before either write makes both calls
read the same (absent) cursor and both select pool index 0 — the very
outcome the claim says the transaction rules out. -/
theorem cursor_race_counterexample :
    (runRace 2 [RaceEvt.readA, RaceEvt.readB, RaceEvt.writeA, RaceEvt.writeB]
        { cursor := none, readA := none, readB := none }).readA = some 0 ∧
    (runRace 2 [RaceEvt.readA, RaceEvt.readB, RaceEvt.writeA, RaceEvt.writeB]
        { cursor := none, readA := none, readB := none }).readB = some 0 :=
  ⟨rfl, rfl⟩

/-- C9 (amended): the cursor advance is a read (`rrRef.get()`) followed
by a separate write (`rrRef.set`), not an atomic transaction; the index
each call selects is `selectedIndex` of whatever its read returned, so
two sequentially executed calls select distinct successive indices, but
there exists an interleaving of two concurrent calls in the same scope
in which both read the same `lastIndex` and select the same owner. -/
theorem cursor_read_then_write_not_atomic :
    (∀ (roles : List RoleEntry) (t r : String) (cs : CursorMap),
       eligiblePool roles t r ≠ [] →
       (pickOwner roles t r cs).1 =
         (eligiblePool roles t r).get?
           (selectedIndex (eligiblePool roles t r).length
             ((getCursor cs (scopeKey t r)).map (fun c => c.lastIndex)))) ∧
    (∀ n : Nat, 2 ≤ n →
       (runRace n [RaceEvt.readA, RaceEvt.writeA, RaceEvt.readB, RaceEvt.writeB]
           { cursor := none, readA := none, readB := none }).readA = some 0 ∧
       (runRace n [RaceEvt.readA, RaceEvt.writeA, RaceEvt.readB, RaceEvt.writeB]
           { cursor := none, readA := none, readB := none }).readB = some 1) ∧
    ((runRace 2 [RaceEvt.readA, RaceEvt.readB, RaceEvt.writeA, RaceEvt.writeB]
        { cursor := none, readA := none, readB := none }).readA =
     (runRace 2 [RaceEvt.readA, RaceEvt.readB, RaceEvt.writeA, RaceEvt.writeB]
        { cursor := none, readA := none, readB := none }).readB) := by
  refine ⟨?_, ?_, rfl⟩
  · intro roles t r cs h
    rw [pickOwner_step roles t r cs h]
  · intro n hn
    constructor
    · rfl
    · show some ((0 + 1) % n) = some 1
      rw [Nat.mod_eq_of_lt (by omega)]

/-- Witness for the amended C9: the code's selection on a concrete pool,
and two sequential calls selecting indices 0 and 1. -/
theorem cursor_read_then_write_not_atomic_witness :
    (pickOwner [exRole] "t1" "" []).1 =
      (eligiblePool [exRole] "t1" "").get?
        (selectedIndex (eligiblePool [exRole] "t1" "").length
          ((getCursor [] (scopeKey "t1" "")).map (fun c => c.lastIndex))) ∧
    (runRace 2 [RaceEvt.readA, RaceEvt.writeA, RaceEvt.readB, RaceEvt.writeB]
        { cursor := none, readA := none, readB := none }).readA = some 0 ∧
    (runRace 2 [RaceEvt.readA, RaceEvt.writeA, RaceEvt.readB, RaceEvt.writeB]
        { cursor := none, readA := none, readB := none }).readB = some 1 :=
  ⟨cursor_read_then_write_not_atomic.1 [exRole] "t1" "" [] (by decide),
   cursor_read_then_write_not_atomic.2.1 2 (by norm_num)⟩

theorem getCursor_setCursor_self (m : CursorMap) (k : String) (c : Cursor) :
    getCursor (setCursor m k c) k = some c :=
  alGet_alSet_self m k c

/-- Starting from a stored cursor with index `j` and count `m`, the next
`k + 1` calls select `pool[(j + 1 + i) % N]` in order and leave the
cursor at `(j + k + 1) % N` with count `m + k + 1`. -/
theorem assignSeq_some (roles : List RoleEntry) (t r : String)
    (hne : eligiblePool roles t r ≠ []) :
    ∀ (k : Nat) (cs : CursorMap) (j m : Nat) (tid reg : String),
      getCursor cs (scopeKey t r) = some ⟨j, m, tid, reg⟩ →
      (assignSeq roles t r (k + 1) cs).1 =
        (List.range (k + 1)).map
          (fun i => (eligiblePool roles t r).get?
            ((j + 1 + i) % (eligiblePool roles t r).length)) ∧
      getCursor (assignSeq roles t r (k + 1) cs).2 (scopeKey t r) =
        some { lastIndex := (j + (k + 1)) % (eligiblePool roles t r).length,
               count := m + (k + 1),
               tenantId := t, region := regionOrAny r } := by
  intro k
  induction k with
  | zero =>
    intro cs j m tid reg hc
    have hfst : pickOwner roles t r cs =
        ((eligiblePool roles t r).get? ((j + 1) % (eligiblePool roles t r).length),
         setCursor cs (scopeKey t r)
           { lastIndex := (j + 1) % (eligiblePool roles t r).length,
             count := m + 1, tenantId := t, region := regionOrAny r }) := by
      rw [pickOwner_step roles t r cs hne, hc]
      rfl
    constructor
    · show (pickOwner roles t r cs).1 ::
        (assignSeq roles t r 0 (pickOwner roles t r cs).2).1 = _
      rw [hfst]
      simp [assignSeq, List.range_succ]
    · show getCursor (assignSeq roles t r 0 (pickOwner roles t r cs).2).2 (scopeKey t r) = _
      rw [show (assignSeq roles t r 0 (pickOwner roles t r cs).2).2
            = (pickOwner roles t r cs).2 from rfl]
      rw [hfst]
      exact getCursor_setCursor_self _ _ _
  | succ k ih =>
    intro cs j m tid reg hc
    have hfst : pickOwner roles t r cs =
        ((eligiblePool roles t r).get? ((j + 1) % (eligiblePool roles t r).length),
         setCursor cs (scopeKey t r)
           { lastIndex := (j + 1) % (eligiblePool roles t r).length,
             count := m + 1, tenantId := t, region := regionOrAny r }) := by
      rw [pickOwner_step roles t r cs hne, hc]
      rfl
    have hcs1 : getCursor (pickOwner roles t r cs).2 (scopeKey t r) =
        some ⟨(j + 1) % (eligiblePool roles t r).length, m + 1, t, regionOrAny r⟩ := by
      rw [hfst]
      exact getCursor_setCursor_self _ _ _
    obtain ⟨ih1, ih2⟩ := ih (pickOwner roles t r cs).2
      ((j + 1) % (eligiblePool roles t r).length) (m + 1) t (regionOrAny r) hcs1
    constructor
    · show (pickOwner roles t r cs).1 ::
        (assignSeq roles t r (k + 1) (pickOwner roles t r cs).2).1 = _
      rw [ih1, hfst]
      conv_rhs => rw [List.range_succ_eq_map, List.map_cons, List.map_map]
      refine congrArg₂ List.cons ?_ ?_
      · norm_num
      · apply List.map_congr_left
        intro i _
        simp only [Function.comp]
        congr 1
        conv_lhs => rw [Nat.add_assoc]
        rw [Nat.mod_add_mod]
        congr 1
        omega
    · show getCursor
        (assignSeq roles t r (k + 1) (pickOwner roles t r cs).2).2 (scopeKey t r) = _
      rw [ih2]
      have hidx : ((j + 1) % (eligiblePool roles t r).length + (k + 1))
            % (eligiblePool roles t r).length
          = (j + (k + 1 + 1)) % (eligiblePool roles t r).length := by
        rw [Nat.mod_add_mod]
        congr 1
        omega
      have hcnt : m + 1 + (k + 1) = m + (k + 1 + 1) := by omega
      rw [hidx, hcnt]

/-- From no stored cursor, the first call selects index 0 and the next
calls continue round the pool; after `k + 1` calls the cursor holds
index `k % N` and count `k + 1`. -/
theorem assignSeq_fromNone (roles : List RoleEntry) (t r : String)
    (hne : eligiblePool roles t r ≠ []) (cs : CursorMap)
    (hcs : getCursor cs (scopeKey t r) = none) :
    ∀ (k : Nat),
      (assignSeq roles t r (k + 1) cs).1 =
        (List.range (k + 1)).map
          (fun i => (eligiblePool roles t r).get?
            (i % (eligiblePool roles t r).length)) ∧
      getCursor (assignSeq roles t r (k + 1) cs).2 (scopeKey t r) =
        some { lastIndex := k % (eligiblePool roles t r).length,
               count := k + 1, tenantId := t, region := regionOrAny r } := by
  have hfst : pickOwner roles t r cs =
      ((eligiblePool roles t r).get? 0,
       setCursor cs (scopeKey t r)
         { lastIndex := 0, count := 1, tenantId := t, region := regionOrAny r }) := by
    rw [pickOwner_step roles t r cs hne, hcs]
    rfl
  have hcs1 : getCursor (pickOwner roles t r cs).2 (scopeKey t r) =
      some ⟨0, 1, t, regionOrAny r⟩ := by
    rw [hfst]
    exact getCursor_setCursor_self _ _ _
  intro k
  cases k with
  | zero =>
    constructor
    · show (pickOwner roles t r cs).1 ::
        (assignSeq roles t r 0 (pickOwner roles t r cs).2).1 = _
      rw [hfst]
      simp [assignSeq, List.range_succ]
    · show getCursor (assignSeq roles t r 0 (pickOwner roles t r cs).2).2 (scopeKey t r) = _
      rw [show (assignSeq roles t r 0 (pickOwner roles t r cs).2).2
            = (pickOwner roles t r cs).2 from rfl]
      rw [hcs1]
      simp
  | succ k =>
    obtain ⟨h1, h2⟩ := assignSeq_some roles t r hne k (pickOwner roles t r cs).2
      0 1 t (regionOrAny r) hcs1
    constructor
    · show (pickOwner roles t r cs).1 ::
        (assignSeq roles t r (k + 1) (pickOwner roles t r cs).2).1 = _
      rw [h1, hfst]
      conv_rhs => rw [List.range_succ_eq_map, List.map_cons, List.map_map]
      refine congrArg₂ List.cons ?_ ?_
      · rw [Nat.zero_mod]
      · apply List.map_congr_left
        intro i _
        simp only [Function.comp]
        congr 1
        congr 1
        omega
    · show getCursor
        (assignSeq roles t r (k + 1) (pickOwner roles t r cs).2).2 (scopeKey t r) = _
      rw [h2, Nat.zero_add, Nat.add_comm 1 (k + 1)]

theorem map_range_get {α : Type} (pool : List α) :
    (List.range pool.length).map (fun i => pool.get? i) = pool.map some := by
  induction pool with
  | nil => rfl
  | cons a l ih =>
    show (List.range (l.length + 1)).map _ = some a :: l.map some
    rw [List.range_succ_eq_map, List.map_cons, List.map_map]
    refine congrArg₂ List.cons rfl ?_
    rw [← ih]
    exact List.map_congr_left (fun i _ => rfl)

/-- C3: for a fixed non-empty eligible pool of size `N` and a fixed
scope with no stored cursor, the first `assign` call selects pool index
0; `N` consecutive calls return each pool member exactly once, in pool
order; call `N + 1` repeats the first member; and after `k + 1` calls
the cursor persists index `k % N` together with counter `k + 1`. -/
theorem round_robin_fairness (roles : List RoleEntry) (t r : String)
    (cs : CursorMap) (pool : List RoleEntry) (N : Nat)
    (hpool : pool = eligiblePool roles t r) (hN : N = pool.length)
    (hne : pool ≠ []) (hcs : getCursor cs (scopeKey t r) = none) :
    (assignSeq roles t r 1 cs).1 = [pool.get? 0] ∧
    (assignSeq roles t r N cs).1 = pool.map some ∧
    (assignSeq roles t r (N + 1) cs).1 = pool.map some ++ [pool.get? 0] ∧
    ∀ k, getCursor (assignSeq roles t r (k + 1) cs).2 (scopeKey t r) =
      some { lastIndex := k % N, count := k + 1,
             tenantId := t, region := regionOrAny r } := by
  subst hpool
  subst hN
  have base := assignSeq_fromNone roles t r hne cs hcs
  have key : (List.range (eligiblePool roles t r).length).map
      (fun i => (eligiblePool roles t r).get? (i % (eligiblePool roles t r).length))
      = (eligiblePool roles t r).map some := by
    have h1 : ∀ i ∈ List.range (eligiblePool roles t r).length,
        (eligiblePool roles t r).get? (i % (eligiblePool roles t r).length)
          = (eligiblePool roles t r).get? i := by
      intro i hi
      rw [Nat.mod_eq_of_lt (List.mem_range.mp hi)]
    rw [List.map_congr_left h1, map_range_get]
  refine ⟨?_, ?_, ?_, fun k => (base k).2⟩
  · have h := (base 0).1
    simpa [List.range_succ] using h
  · obtain ⟨M, hM⟩ : ∃ M, (eligiblePool roles t r).length = M + 1 := by
      cases hl : (eligiblePool roles t r).length with
      | zero => exact absurd (List.length_eq_zero.mp hl) hne
      | succ M => exact ⟨M, rfl⟩
    have h := (base M).1
    rw [hM, h, ← hM]
    exact key
  · have h := (base (eligiblePool roles t r).length).1
    rw [h, List.range_succ, List.map_append, key]
    congr 1
    simp [Nat.mod_self]

/-- Witness for C3 on a pool of two owners, starting with no cursor. -/
theorem round_robin_fairness_witness :
    (assignSeq [exRole, exRole2] "t1" "" 1 []).1
        = [(eligiblePool [exRole, exRole2] "t1" "").get? 0] ∧
    (assignSeq [exRole, exRole2] "t1" ""
        (eligiblePool [exRole, exRole2] "t1" "").length []).1
        = (eligiblePool [exRole, exRole2] "t1" "").map some ∧
    (assignSeq [exRole, exRole2] "t1" ""
        ((eligiblePool [exRole, exRole2] "t1" "").length + 1) []).1
        = (eligiblePool [exRole, exRole2] "t1" "").map some
            ++ [(eligiblePool [exRole, exRole2] "t1" "").get? 0] := by
  have h := round_robin_fairness [exRole, exRole2] "t1" "" []
    (eligiblePool [exRole, exRole2] "t1" "")
    (eligiblePool [exRole, exRole2] "t1" "").length
    rfl rfl (by decide) rfl
  exact ⟨h.1, h.2.1, h.2.2.1⟩

theorem stageItem_eq (roles : List RoleEntry) (c : String) (now : Int)
    (cs : CursorMap) (raw : RawRecord) (p : Prospect)
    (hp : validateRecord (prepare raw) = some p) :
    stageItem roles c now cs raw =
      some ((resolveOwner roles p cs).2.2, stagedWrites roles c now cs p) := by
  unfold stageItem
  rw [hp]

theorem filterMap_comp_none {α β γ : Type} (f : β → Option γ) (g : α → β)
    (hfg : ∀ a, f (g a) = none) (l : List α) :
    l.filterMap (f ∘ g) = [] := by
  induction l with
  | nil => rfl
  | cons a l ih =>
    rw [List.filterMap_cons]
    show (match (f ∘ g) a with
          | none => l.filterMap (f ∘ g)
          | some b => b :: l.filterMap (f ∘ g)) = []
    rw [show (f ∘ g) a = none from hfg a]
    exact ih

theorem auditsOf_stagedWrites (roles : List RoleEntry) (c : String) (now : Int)
    (cs : CursorMap) (p : Prospect) :
    auditsOf (stagedWrites roles c now cs p) =
      [{ type := "import", tenantId := p.tenantId,
         prospectId := normalizeId p.domain p.product.str,
         byUid := c, atMs := now }] := by
  unfold stagedWrites auditsOf contactWrites signalWrites auditWrite
  rw [List.filterMap_cons]
  simp only [List.filterMap_append, List.filterMap_map]
  rw [filterMap_comp_none _ _ (fun a => rfl), filterMap_comp_none _ _ (fun a => rfl)]
  rfl

theorem prospectKeys_stagedWrites (roles : List RoleEntry) (c : String) (now : Int)
    (cs : CursorMap) (p : Prospect) :
    prospectKeys (stagedWrites roles c now cs p) =
      [(p.tenantId, normalizeId p.domain p.product.str)] := by
  unfold stagedWrites prospectKeys contactWrites signalWrites auditWrite
  rw [List.filterMap_cons]
  simp only [List.filterMap_append, List.filterMap_map]
  rw [filterMap_comp_none _ _ (fun a => rfl), filterMap_comp_none _ _ (fun a => rfl)]
  rfl

theorem applyBatch_audit (ws : List StagedWrite) :
    ∀ st : DBState, (applyBatch st ws).audit = st.audit ++ auditsOf ws := by
  induction ws with
  | nil =>
    intro st
    simp [applyBatch, auditsOf]
  | cons w ws ih =>
    intro st
    show (applyBatch (applyWrite st w) ws).audit = _
    rw [ih]
    cases w with
    | prospect t id d => simp [applyWrite, auditsOf, List.filterMap_cons]
    | contact t pid d => simp [applyWrite, auditsOf, List.filterMap_cons]
    | signal t pid d => simp [applyWrite, auditsOf, List.filterMap_cons]
    | audit a => simp [applyWrite, auditsOf, List.filterMap_cons]

theorem getDoc_applyBatch_presence (ws : List StagedWrite) :
    ∀ (st : DBState) (k : String × String),
      (getDoc st.prospects k ≠ none ∨ k ∈ prospectKeys ws) →
      getDoc (applyBatch st ws).prospects k ≠ none := by
  induction ws with
  | nil =>
    intro st k h
    cases h with
    | inl h => exact h
    | inr h =>
      unfold prospectKeys at h
      exact absurd h (List.not_mem_nil k)
  | cons w ws ih =>
    intro st k h
    show getDoc (applyBatch (applyWrite st w) ws).prospects k ≠ none
    apply ih
    cases w with
    | prospect t id d =>
      by_cases hk : k = (t, id)
      · left
        rw [hk]
        show alGet (alSet st.prospects (t, id) d) (t, id) ≠ none
        rw [alGet_alSet_self]
        simp
      · cases h with
        | inl h =>
          left
          show alGet (alSet st.prospects (t, id) d) k ≠ none
          rw [alGet_alSet_ne _ _ _ _ hk]
          exact h
        | inr h =>
          unfold prospectKeys at h
          rw [List.filterMap_cons] at h
          cases h with
          | head => exact absurd rfl hk
          | tail _ h => right; exact h
    | contact t pid d =>
      cases h with
      | inl h => left; exact h
      | inr h =>
        right
        unfold prospectKeys at h
        rw [List.filterMap_cons] at h
        exact h
    | signal t pid d =>
      cases h with
      | inl h => left; exact h
      | inr h =>
        right
        unfold prospectKeys at h
        rw [List.filterMap_cons] at h
        exact h
    | audit a =>
      cases h with
      | inl h => left; exact h
      | inr h =>
        right
        unfold prospectKeys at h
        rw [List.filterMap_cons] at h
        exact h

theorem stageAll_spec (roles : List RoleEntry) (c : String) (now : Int) :
    ∀ (list : List RawRecord) (cs cs' : CursorMap) (ws : List StagedWrite) (n : Nat),
      stageAll roles c now list cs = (cs', some (ws, n)) →
      n = list.length ∧ (auditsOf ws).length = list.length ∧
      ∀ a ∈ auditsOf ws, a.type = "import" ∧ a.byUid = c ∧
        (a.tenantId, a.prospectId) ∈ prospectKeys ws := by
  intro list
  induction list with
  | nil =>
    intro cs cs' ws n h
    unfold stageAll at h
    rw [Prod.mk.injEq] at h
    obtain ⟨h1, h2⟩ := h
    rw [Option.some.injEq, Prod.mk.injEq] at h2
    obtain ⟨hw, hn⟩ := h2
    subst hw
    subst hn
    refine ⟨rfl, rfl, ?_⟩
    intro a ha
    unfold auditsOf at ha
    exact absurd ha (List.not_mem_nil a)
  | cons raw rest ih =>
    intro cs cs' ws n h
    unfold stageAll at h
    split at h
    · rw [Prod.mk.injEq] at h
      exact absurd h.2 (by simp)
    · rename_i cs1 ws1 hsi
      split at h
      · rw [Prod.mk.injEq] at h
        exact absurd h.2 (by simp)
      · rename_i cs2 ws2 n2 hsa
        rw [Prod.mk.injEq, Option.some.injEq, Prod.mk.injEq] at h
        obtain ⟨hcs, hw, hn⟩ := h
        subst hw
        subst hn
        obtain ⟨ihn, ihlen, ihmem⟩ := ih cs1 cs2 ws2 n2 hsa
        have hone : ∃ p : Prospect, validateRecord (prepare raw) = some p ∧
            ws1 = stagedWrites roles c now cs p := by
          unfold stageItem at hsi
          cases hv : validateRecord (prepare raw) with
          | none => rw [hv] at hsi; exact absurd hsi (by simp)
          | some p =>
            rw [hv] at hsi
            rw [Option.some.injEq, Prod.mk.injEq] at hsi
            exact ⟨p, rfl, hsi.2.symm⟩
        obtain ⟨p, hv, hws1⟩ := hone
        subst hws1
        have haud : auditsOf (stagedWrites roles c now cs p ++ ws2) =
            ({ type := "import", tenantId := p.tenantId,
               prospectId := normalizeId p.domain p.product.str,
               byUid := c, atMs := now } : AuditDoc) :: auditsOf ws2 := by
          unfold auditsOf
          rw [List.filterMap_append]
          show auditsOf (stagedWrites roles c now cs p) ++ auditsOf ws2 = _
          rw [auditsOf_stagedWrites]
          rfl
        have hkeys : prospectKeys (stagedWrites roles c now cs p ++ ws2) =
            (p.tenantId, normalizeId p.domain p.product.str) :: prospectKeys ws2 := by
          unfold prospectKeys
          rw [List.filterMap_append]
          show prospectKeys (stagedWrites roles c now cs p) ++ prospectKeys ws2 = _
          rw [prospectKeys_stagedWrites]
          rfl
        refine ⟨by rw [ihn, List.length_cons], ?_, ?_⟩
        · rw [haud, List.length_cons, ihlen, List.length_cons]
        · intro a ha
          rw [haud] at ha
          cases ha with
          | head =>
            refine ⟨rfl, rfl, ?_⟩
            rw [hkeys]
            exact List.mem_cons_self _ _
          | tail _ ha =>
            obtain ⟨h1, h2, h3⟩ := ihmem a ha
            refine ⟨h1, h2, ?_⟩
            rw [hkeys]
            exact List.mem_cons_of_mem _ h3

theorem import_error_state (roles : List RoleEntry) (caller : Option String)
    (items : Option (List RawRecord)) (now : Int) (st : DBState) (e : ImportError)
    (h : (importProspects roles caller items now st).2 = .error e) :
    (importProspects roles caller items now st).1.prospects = st.prospects ∧
    (importProspects roles caller items now st).1.contacts = st.contacts ∧
    (importProspects roles caller items now st).1.signals = st.signals ∧
    (importProspects roles caller items now st).1.audit = st.audit := by
  rcases hrun : importProspects roles caller items now st with ⟨st2, res⟩
  have hres : res = Except.error e := by rw [hrun] at h; exact h
  clear h
  unfold importProspects at hrun
  split at hrun
  · rw [Prod.mk.injEq] at hrun
    rw [← hrun.1]
    exact ⟨rfl, rfl, rfl, rfl⟩
  · split at hrun
    · rw [Prod.mk.injEq] at hrun
      rw [← hrun.1]
      exact ⟨rfl, rfl, rfl, rfl⟩
    · split at hrun
      · rw [Prod.mk.injEq] at hrun
        rw [← hrun.1]
        exact ⟨rfl, rfl, rfl, rfl⟩
      · rw [Prod.mk.injEq] at hrun
        rw [← hrun.2] at hres
        exact Except.noConfusion hres

theorem applyBatch_prospects_const (ws : List StagedWrite)
    (hws : ∀ w ∈ ws, ∀ st : DBState, (applyWrite st w).prospects = st.prospects) :
    ∀ st, (applyBatch st ws).prospects = st.prospects := by
  induction ws with
  | nil => intro st; rfl
  | cons w ws ih =>
    intro st
    show (applyBatch (applyWrite st w) ws).prospects = st.prospects
    rw [ih (fun w' hw' => hws w' (List.mem_cons_of_mem _ hw')),
        hws w (List.mem_cons_self _ _)]

theorem getDoc_applyBatch_stagedWrites (roles : List RoleEntry) (c : String)
    (now : Int) (cs : CursorMap) (p : Prospect) (st : DBState) :
    getDoc (applyBatch st (stagedWrites roles c now cs p)).prospects
        (p.tenantId, normalizeId p.domain p.product.str) =
      some (mkProspectDoc p (resolveOwner roles p cs).1
              (resolveOwner roles p cs).2.1 now) := by
  have h1 : applyBatch st (stagedWrites roles c now cs p) =
      applyBatch
        (applyWrite st (StagedWrite.prospect p.tenantId
          (normalizeId p.domain p.product.str)
          (mkProspectDoc p (resolveOwner roles p cs).1
            (resolveOwner roles p cs).2.1 now)))
        (contactWrites p.tenantId (normalizeId p.domain p.product.str)
            now (p.contacts.getD [])
          ++ signalWrites p.tenantId (normalizeId p.domain p.product.str)
              now (p.signals.getD [])
          ++ [auditWrite p.tenantId (normalizeId p.domain p.product.str) c now]) := rfl
  rw [h1]
  have hws : ∀ w ∈ (contactWrites p.tenantId (normalizeId p.domain p.product.str)
        now (p.contacts.getD [])
      ++ signalWrites p.tenantId (normalizeId p.domain p.product.str)
          now (p.signals.getD [])
      ++ [auditWrite p.tenantId (normalizeId p.domain p.product.str) c now]),
      ∀ st' : DBState, (applyWrite st' w).prospects = st'.prospects := by
    intro w hw st'
    rcases List.mem_append.mp hw with hw | hw
    · rcases List.mem_append.mp hw with hw | hw
      · unfold contactWrites at hw
        obtain ⟨c', _, rfl⟩ := List.mem_map.mp hw
        rfl
      · unfold signalWrites at hw
        obtain ⟨s, _, rfl⟩ := List.mem_map.mp hw
        rfl
    · rw [List.mem_singleton] at hw
      subst hw
      rfl
  rw [applyBatch_prospects_const _ hws]
  exact alGet_alSet_self _ _ _

theorem import_single (roles : List RoleEntry) (c : String) (raw : RawRecord)
    (p : Prospect) (now : Int) (st : DBState) (hc : c ≠ "")
    (hp : validateRecord (prepare raw) = some p) :
    (importProspects roles (some c) (some [raw]) now st).2 = Except.ok 1 ∧
    getDoc (importProspects roles (some c) (some [raw]) now st).1.prospects
        (p.tenantId, normalizeId p.domain p.product.str) =
      some (mkProspectDoc p (resolveOwner roles p st.cursors).1
              (resolveOwner roles p st.cursors).2.1 now) := by
  have hjc : jsOrNull (some c) = some c := by simp [jsOrNull, hc]
  have hsi := stageItem_eq roles c now st.cursors raw p hp
  have hsa : stageAll roles c now [raw] st.cursors =
      ((resolveOwner roles p st.cursors).2.2,
       some (stagedWrites roles c now st.cursors p, 1)) := by
    unfold stageAll
    rw [hsi]
    show ((resolveOwner roles p st.cursors).2.2,
          some (stagedWrites roles c now st.cursors p ++ [], 0 + 1)) = _
    rw [List.append_nil]
  have hrun : importProspects roles (some c) (some [raw]) now st =
      (applyBatch { st with cursors := (resolveOwner roles p st.cursors).2.2 }
         (stagedWrites roles c now st.cursors p), Except.ok 1) := by
    unfold importProspects
    rw [hjc]
    show (match stageAll roles c now [raw] st.cursors with
          | (cs', none) =>
            ({ st with cursors := cs' }, Except.error ImportError.invalidRecord)
          | (cs', some (ws, n)) =>
            (applyBatch { st with cursors := cs' } ws, Except.ok n)) = _
    rw [hsa]
  rw [hrun]
  exact ⟨rfl, getDoc_applyBatch_stagedWrites roles c now st.cursors p _⟩

/-- C1 counterexample: importing a batch whose first record is valid and
whose second record has `product = "unknown"` fails the whole call, yet
a rotation-cursor write for the first record has already been performed
by `pickOwner` (outside the batch): the cursor document for scope
`t1__ANY` exists after the failed call although none existed before —
refuting "no write of any kind, including rotation-cursor writes". -/
theorem import_partial_cursor_write_counterexample :
    (importProspects [exRole] (some "caller") (some [exRecord, exBadRecord]) 7
        DBState.empty).2
      = Except.error ImportError.invalidRecord ∧
    getCursor (importProspects [exRole] (some "caller")
          (some [exRecord, exBadRecord]) 7 DBState.empty).1.cursors
        (scopeKey "t1" "")
      = some { lastIndex := 0, count := 1, tenantId := "t1", region := "ANY" } ∧
    getCursor DBState.empty.cursors (scopeKey "t1" "") = none :=
  ⟨rfl, rfl, rfl⟩

/-- C1 (amended): if any input record fails schema validation the entire
call fails and none of the batched writes is committed — no prospect,
contact, signal, or audit document changes; however rotation-cursor
writes made by `pickOwner` while assigning owners to earlier,
already-validated records of the batch do persist, because the source
writes the cursor immediately rather than staging it on the batch. -/
theorem import_validation_failure_no_batch_writes (roles : List RoleEntry)
    (caller : Option String) (items : Option (List RawRecord)) (now : Int)
    (st : DBState) (e : ImportError)
    (h : (importProspects roles caller items now st).2 = .error e) :
    (importProspects roles caller items now st).1.prospects = st.prospects ∧
    (importProspects roles caller items now st).1.contacts = st.contacts ∧
    (importProspects roles caller items now st).1.signals = st.signals ∧
    (importProspects roles caller items now st).1.audit = st.audit :=
  import_error_state roles caller items now st e h

/-- Witness for the amended C1 at the counterexample input. -/
theorem import_validation_failure_no_batch_writes_witness :
    (importProspects [exRole] (some "caller") (some [exRecord, exBadRecord]) 7
        DBState.empty).1.prospects = DBState.empty.prospects ∧
    (importProspects [exRole] (some "caller") (some [exRecord, exBadRecord]) 7
        DBState.empty).1.contacts = DBState.empty.contacts ∧
    (importProspects [exRole] (some "caller") (some [exRecord, exBadRecord]) 7
        DBState.empty).1.signals = DBState.empty.signals ∧
    (importProspects [exRole] (some "caller") (some [exRecord, exBadRecord]) 7
        DBState.empty).1.audit = DBState.empty.audit :=
  import_validation_failure_no_batch_writes [exRole] (some "caller")
    (some [exRecord, exBadRecord]) 7 DBState.empty ImportError.invalidRecord rfl

/-- C2 counterexample: importing a record with `score = 50` and then
re-importing the same `(tenant, domain, product)` identity with the
`score` field omitted resets the stored score to the zod default `0`
instead of preserving `50` — refuting the claimed merge semantics for
input-omitted fields. -/
theorem import_merge_counterexample :
    (getDoc (importProspects [exRole] (some "caller") (some [exRecord]) 7
          DBState.empty).1.prospects ("t1", "a.edu_verity")).map (fun d => d.score)
      = some 50 ∧
    (importProspects [exRole] (some "caller") (some [exOmitScore]) 8
        (importProspects [exRole] (some "caller") (some [exRecord]) 7
          DBState.empty).1).2
      = Except.ok 1 ∧
    (getDoc (importProspects [exRole] (some "caller") (some [exOmitScore]) 8
          (importProspects [exRole] (some "caller") (some [exRecord]) 7
            DBState.empty).1).1.prospects
        ("t1", "a.edu_verity")).map (fun d => d.score)
      = some 0 :=
  ⟨by decide, rfl, by decide⟩

/-- C2 (amended): the Prospect upsert passes `merge: true`, but the
write payload always contains every schema field, with zod defaults
substituted for fields omitted from the input record; hence a successful
re-import stores, at the record identity, exactly the document computed
from the newly parsed record (and the owner resolution) — independent of
every previously stored field value, so omitting `score`, `stage` or
`status` resets them to `0`, `research`, `new` rather than preserving
them.  Only fields outside the payload would be preserved by the merge. -/
theorem import_overwrites_all_fields (roles : List RoleEntry) (c : String)
    (raw : RawRecord) (p : Prospect) (now : Int) (hc : c ≠ "")
    (hp : validateRecord (prepare raw) = some p) :
    ∀ st : DBState,
      (importProspects roles (some c) (some [raw]) now st).2 = Except.ok 1 ∧
      getDoc (importProspects roles (some c) (some [raw]) now st).1.prospects
          (p.tenantId, normalizeId p.domain p.product.str) =
        some (mkProspectDoc p (resolveOwner roles p st.cursors).1
                (resolveOwner roles p st.cursors).2.1 now) :=
  fun st => import_single roles c raw p now st hc hp

/-- Witness for the amended C2: re-importing `exOmitScore` over any prior
state stores the zod-defaulted document (score 0). -/
theorem import_overwrites_all_fields_witness :
    (importProspects [exRole] (some "caller") (some [exOmitScore]) 8
        DBState.empty).2 = Except.ok 1 ∧
    getDoc (importProspects [exRole] (some "caller") (some [exOmitScore]) 8
        DBState.empty).1.prospects
        (exParsed.tenantId, normalizeId exParsed.domain exParsed.product.str) =
      some (mkProspectDoc exParsed
              (resolveOwner [exRole] exParsed DBState.empty.cursors).1
              (resolveOwner [exRole] exParsed DBState.empty.cursors).2.1 8) :=
  import_overwrites_all_fields [exRole] "caller" exOmitScore exParsed 8
    (by decide) (by decide) DBState.empty

/-- C5: a committed import call stages exactly one `AuditRecord` of type
"import" per processed input record — the audit log grows by exactly
`items.length` entries, each referencing the caller and a prospect id
whose document is present in the same atomically committed state — and
on any failed call neither audit entries nor prospect writes are
observable (the batch is all-or-nothing). -/
theorem import_audit_per_record_atomic (roles : List RoleEntry) (c : String)
    (items : List RawRecord) (now : Int) (st : DBState) :
    (∀ n, (importProspects roles (some c) (some items) now st).2 = Except.ok n →
       n = items.length ∧
       (importProspects roles (some c) (some items) now st).1.audit.length
         = st.audit.length + items.length ∧
       ∀ a ∈ ((importProspects roles (some c) (some items) now st).1.audit).drop
           st.audit.length,
         a.type = "import" ∧ a.byUid = c ∧
         getDoc (importProspects roles (some c) (some items) now st).1.prospects
           (a.tenantId, a.prospectId) ≠ none) ∧
    (∀ e, (importProspects roles (some c) (some items) now st).2 = Except.error e →
       (importProspects roles (some c) (some items) now st).1.audit = st.audit ∧
       (importProspects roles (some c) (some items) now st).1.prospects
         = st.prospects) := by
  constructor
  · intro n hok
    have hjc : jsOrNull (some c) = some c ∨ jsOrNull (some c) = none := by
      unfold jsOrNull
      by_cases hce : c = "" <;> simp [hce]
    cases hjc with
    | inr hnone =>
      have hrun : importProspects roles (some c) (some items) now st
          = (st, Except.error ImportError.authRequired) := by
        unfold importProspects
        rw [hnone]
      rw [hrun] at hok
      exact absurd hok (by simp)
    | inl hsome =>
      rcases hsa : stageAll roles c now items st.cursors with ⟨cs2, r2⟩
      cases r2 with
      | none =>
        have hrun : importProspects roles (some c) (some items) now st
            = ({ st with cursors := cs2 }, Except.error ImportError.invalidRecord) := by
          unfold importProspects
          rw [hsome]
          show (match stageAll roles c now items st.cursors with
                | (cs', none) =>
                  ({ st with cursors := cs' }, Except.error ImportError.invalidRecord)
                | (cs', some (ws, n)) =>
                  (applyBatch { st with cursors := cs' } ws, Except.ok n)) = _
          rw [hsa]
        rw [hrun] at hok
        exact absurd hok (by simp)
      | some q =>
        obtain ⟨ws, n2⟩ := q
        have hrun : importProspects roles (some c) (some items) now st
            = (applyBatch { st with cursors := cs2 } ws, Except.ok n2) := by
          unfold importProspects
          rw [hsome]
          show (match stageAll roles c now items st.cursors with
                | (cs', none) =>
                  ({ st with cursors := cs' }, Except.error ImportError.invalidRecord)
                | (cs', some (ws, n)) =>
                  (applyBatch { st with cursors := cs' } ws, Except.ok n)) = _
          rw [hsa]
        have hok' : Except.ok (ε := ImportError) n2 = Except.ok n := by
          rw [hrun] at hok
          exact hok
        have hn2 : n2 = n := by injection hok'
        subst hn2
        obtain ⟨hlen, haudlen, hmem⟩ :=
          stageAll_spec roles c now items st.cursors cs2 ws n2 hsa
        rw [hrun]
        have haud2 : (applyBatch { st with cursors := cs2 } ws).audit
            = st.audit ++ auditsOf ws := by
          rw [applyBatch_audit]
        refine ⟨hlen, ?_, ?_⟩
        · show (applyBatch { st with cursors := cs2 } ws).audit.length = _
          rw [haud2, List.length_append, haudlen]
        · intro a ha
          have hdrop : ((applyBatch { st with cursors := cs2 } ws).audit).drop
              st.audit.length = auditsOf ws := by
            rw [haud2]
            exact List.drop_left _ _
          rw [hdrop] at ha
          obtain ⟨h1, h2, h3⟩ := hmem a ha
          refine ⟨h1, h2, ?_⟩
          apply getDoc_applyBatch_presence
          right
          exact h3
  · intro e herr
    have h := import_error_state roles (some c) (some items) now st e herr
    exact ⟨h.2.2.2, h.1⟩

/-- Witness for C5 on a one-record import. -/
theorem import_audit_per_record_atomic_witness :
    (1 = [exRecord].length ∧
     (importProspects [exRole] (some "caller") (some [exRecord]) 7
         DBState.empty).1.audit.length
       = DBState.empty.audit.length + [exRecord].length) := by
  have h := (import_audit_per_record_atomic [exRole] "caller" [exRecord] 7
    DBState.empty).1 1 rfl
  exact ⟨h.1, h.2.1⟩

/-- C7: the eligible pool for `(tenantId, region)` is exactly the set of
role entries granting "sdr" or "admin" for the tenant whose `regions`
field is absent, contains the region, or contains the wildcard "ALL";
an empty pool makes `pickOwner` return `null` without touching the
cursor, and the import call still commits the record with a null
`ownerUid` — an empty pool is never surfaced as a failure. -/
theorem eligible_pool_filter_and_degradation :
    (∀ (roles : List RoleEntry) (tenantId region : String) (e : RoleEntry),
       e ∈ eligiblePool roles tenantId region ↔
         e ∈ roles ∧
         (tenantRole e tenantId = some "sdr" ∨ tenantRole e tenantId = some "admin") ∧
         (e.regions = none ∨
          ∃ rs, e.regions = some rs ∧ (region ∈ rs ∨ "ALL" ∈ rs))) ∧
    (∀ (roles : List RoleEntry) (tenantId region : String) (cs : CursorMap),
       eligiblePool roles tenantId region = [] →
       pickOwner roles tenantId region cs = (none, cs)) ∧
    (∀ (roles : List RoleEntry) (c : String) (raw : RawRecord) (p : Prospect)
       (now : Int) (st : DBState),
       c ≠ "" →
       validateRecord (prepare raw) = some p →
       jsOrNull p.ownerUid = none →
       eligiblePool roles p.tenantId p.region = [] →
       (importProspects roles (some c) (some [raw]) now st).2 = Except.ok 1 ∧
       getDoc (importProspects roles (some c) (some [raw]) now st).1.prospects
           (p.tenantId, normalizeId p.domain p.product.str) =
         some (mkProspectDoc p none (jsOrNull p.ownerName) now)) := by
  have hpick : ∀ (roles : List RoleEntry) (tenantId region : String) (cs : CursorMap),
      eligiblePool roles tenantId region = [] →
      pickOwner roles tenantId region cs = (none, cs) := by
    intro roles tenantId region cs h
    unfold pickOwner
    simp [h]
  refine ⟨?_, hpick, ?_⟩
  · intro roles tenantId region e
    unfold eligiblePool
    rw [List.mem_filter]
    constructor
    · rintro ⟨hmem, hok⟩
      rw [Bool.and_eq_true] at hok
      refine ⟨hmem, ?_, ?_⟩
      · have h := hok.1
        unfold roleOk at h
        cases hro : tenantRole e tenantId with
        | none => rw [hro] at h; exact absurd h (by simp)
        | some r =>
          rw [hro] at h
          rw [Bool.or_eq_true, decide_eq_true_iff, decide_eq_true_iff] at h
          cases h with
          | inl h => exact Or.inl (by rw [h])
          | inr h => exact Or.inr (by rw [h])
      · have h := hok.2
        unfold regionOk at h
        cases hre : e.regions with
        | none => exact Or.inl rfl
        | some rs =>
          rw [hre] at h
          rw [Bool.or_eq_true] at h
          refine Or.inr ⟨rs, rfl, ?_⟩
          cases h with
          | inl h => exact Or.inl (List.elem_iff.mp h)
          | inr h => exact Or.inr (List.elem_iff.mp h)
    · rintro ⟨hmem, hrole, hregion⟩
      refine ⟨hmem, ?_⟩
      rw [Bool.and_eq_true]
      constructor
      · unfold roleOk
        cases hrole with
        | inl h => rw [h]; simp
        | inr h => rw [h]; simp
      · unfold regionOk
        cases hregion with
        | inl h => rw [h]
        | inr h =>
          obtain ⟨rs, hrs, h⟩ := h
          rw [hrs]
          rw [Bool.or_eq_true]
          cases h with
          | inl h => exact Or.inl (List.elem_iff.mpr h)
          | inr h => exact Or.inr (List.elem_iff.mpr h)
  · intro roles c raw p now st hc hp hu hpool
    have hro : resolveOwner roles p st.cursors
        = (none, jsOrNull p.ownerName, st.cursors) := by
      unfold resolveOwner
      rw [hu, hpick roles p.tenantId p.region st.cursors hpool]
    have h := import_single roles c raw p now st hc hp
    rw [hro] at h
    exact h

/-- Witness for C7: with an empty role pool the record is committed with
a null owner and the call reports success. -/
theorem eligible_pool_filter_and_degradation_witness :
    (importProspects [] (some "caller") (some [exOmitScore]) 8
        DBState.empty).2 = Except.ok 1 ∧
    getDoc (importProspects [] (some "caller") (some [exOmitScore]) 8
        DBState.empty).1.prospects
        (exParsed.tenantId, normalizeId exParsed.domain exParsed.product.str) =
      some (mkProspectDoc exParsed none (jsOrNull exParsed.ownerName) 8) :=
  eligible_pool_filter_and_degradation.2.2 [] "caller" exOmitScore exParsed 8
    DBState.empty (by decide) (by decide) rfl rfl


end Yuja
